import Mathlib

/-!
Shallow embedding of `src/layout/text_selection.rs` (orbtk): the
`TextSelectionLayout` layout strategy, its `measure` and `arrange` methods,
and the property-store / tree / registry interface they consume.
Rust `f64` values are modelled as exact rationals; `u32` pixel widths as `Nat`.
Stateful code (the `RefCell`/`Cell` fields, the component store, the child
layouts reached through the registry) is modelled by explicit state passing.
-/

namespace Orbtk

/-- Node identifier (`dces::Entity`), an opaque handle into the component store. -/
abbrev Entity := Nat

/-- The `TextSelection` property: `start_index` and `end_index`, byte offsets
into the text. -/
structure TextSelection where
  start_index : Nat
  end_index : Nat
deriving DecidableEq

instance : Inhabited TextSelection := ⟨⟨0, 0⟩⟩

/-- Modelled from the spec: `structs::DirtySize` is not among the sources under
study. §4.1 gives its contract: `set_size`, `set_width`, `set_height` overwrite
the stored dimensions without altering the dirty flag; `set_dirty` sets the
flag; `size` and `dirty` are pure readers. -/
structure DirtySize where
  width : ℚ
  height : ℚ
  dirty : Bool
deriving DecidableEq

instance : Inhabited DirtySize := ⟨⟨0, 0, false⟩⟩

def DirtySize.set_size (d : DirtySize) (w h : ℚ) : DirtySize :=
  { d with width := w, height := h }

def DirtySize.set_width (d : DirtySize) (w : ℚ) : DirtySize :=
  { d with width := w }

def DirtySize.set_height (d : DirtySize) (h : ℚ) : DirtySize :=
  { d with height := h }

def DirtySize.set_dirty (d : DirtySize) (b : Bool) : DirtySize :=
  { d with dirty := b }

def DirtySize.size (d : DirtySize) : ℚ × ℚ := (d.width, d.height)

/-- The `Visibility` property enum. -/
inductive Visibility
  | Visible
  | Hidden
  | Collapsed
deriving DecidableEq

/-- The `Margin` property (left, top, right, bottom); the strategy writes only
its left component. -/
structure Margin where
  left : ℚ
  top : ℚ
  right : ℚ
  bottom : ℚ
deriving DecidableEq

def Margin.set_left (m : Margin) (v : ℚ) : Margin := { m with left := v }

/-- The `Bounds` property; `arrange` writes its width and height. -/
structure Bounds where
  x : ℚ
  y : ℚ
  width : ℚ
  height : ℚ
deriving DecidableEq

/-- The `Constraint` property, restricted to the two accessors the layout
reads: `width()` and `height()` (a value ≤ 0 on an axis means unconstrained). -/
structure Constraint where
  width : ℚ
  height : ℚ
deriving DecidableEq

/-- Modelled from the spec: `VerticalAlignment::align_height` lives in the
`properties` module, not among the sources under study. §4.4 step 3: it
resolves vertical alignment against the parent-granted height and the node's
margin, producing the final height component of the size. It is kept abstract
as a function parameter. -/
abbrev AlignHeight := ℚ → ℚ → Margin → ℚ

/-- Modelled from the spec: the font-measurement oracle (`FONT_MEASURE` in the
`backend` module, not among the sources under study). §6: `measure(text, font,
font_size) → pixel width`, a pure function of its inputs; the width is a `u32`,
so a `Nat` here. -/
abbrev FontMeasure := List Char → String → Nat → Nat

/-- The per-node view of the component store that `measure`/`arrange` read:
optional components are `Option` (a missing component makes
`borrow_component` fail and the dependent step is skipped), while
`Visibility::get`, `Constraint::get` and the `get_property` calls resolve to a
value (the component or its default). -/
structure NodeEnv where
  visibility : Visibility
  constraint : Constraint
  selection : Option TextSelection
  text : Option (List Char)
  font : String
  font_size : ℚ
  offset : Option ℚ
  margin : Option Margin
  bounds : Option Bounds
deriving DecidableEq

/-- The mutable state of a `TextSelectionLayout` instance: the
`RefCell<DirtySize>` cache and the `Cell<TextSelection>` prior selection. -/
structure TextSelectionLayout where
  desired_size : DirtySize
  old_text_selection : TextSelection
deriving DecidableEq

instance : Inhabited TextSelectionLayout := ⟨⟨default, default⟩⟩

/-- The child layouts reached through the registry are arbitrary `Layout`
trait objects; their behaviour is abstracted as functions over an abstract
world state `σ` (their own caches plus the component store entries of the
subtree). -/
structure ChildOracle (σ : Type) where
  measure : Entity → σ → DirtySize × σ
  arrange : ℚ × ℚ → Entity → σ → (ℚ × ℚ) × σ

/-- Rust `f64 as u32`: saturating cast, truncating toward zero. -/
def f64_as_u32 (q : ℚ) : Nat :=
  min (Rat.floor q).toNat 4294967295

/-- Rust `str::get(0..i)` on the text, by byte offset: `some` prefix exactly
when `i` is at most the byte length and falls on a UTF-8 character boundary. -/
def strGetTo : List Char → Nat → Option (List Char)
  | _, 0 => some []
  | [], _ + 1 => none
  | c :: rest, i + 1 =>
      if i + 1 < c.utf8Size then none
      else (strGetTo rest (i + 1 - c.utf8Size)).map (c :: ·)

/-- The UTF-8 byte length of a text. -/
def utf8Len (s : List Char) : Nat := (s.map Char.utf8Size).sum

/-- Rust `str::is_char_boundary`: byte offset 0 is a boundary, and offset
`i + 1` is a boundary exactly when it does not fall strictly inside the
leading character's byte run and the rest is a boundary of the tail. -/
def isCharBoundary : List Char → Nat → Bool
  | _, 0 => true
  | [], _ + 1 => false
  | c :: rest, i + 1 =>
      if i + 1 < c.utf8Size then false
      else isCharBoundary rest (i + 1 - c.utf8Size)

/-- The selection step of `measure` (lines 58–64): if the entity has a
`TextSelection` component that differs from the cached prior selection, mark
the cache dirty; then unconditionally store the current selection. -/
def selStep (env : NodeEnv) (self : TextSelectionLayout) : TextSelectionLayout :=
  match env.selection with
  | some selection =>
      { desired_size :=
          if selection ≠ self.old_text_selection then self.desired_size.set_dirty true
          else self.desired_size,
        old_text_selection := selection }
  | none => self

/-- The width-constraint step of `measure` (lines 76–78): a positive
constraint width overwrites the cached width. -/
def widthStep (c : Constraint) (self : TextSelectionLayout) : TextSelectionLayout :=
  if c.width > 0 then { self with desired_size := self.desired_size.set_width c.width }
  else self

/-- The height-constraint step of `measure` (lines 80–84): a positive
constraint height overwrites the cached height. -/
def heightStep (c : Constraint) (self : TextSelectionLayout) : TextSelectionLayout :=
  if c.height > 0 then { self with desired_size := self.desired_size.set_height c.height }
  else self

/-- One child-measure pass of `measure` (lines 66–74 and 86–94): for each
child with an entry in the registry, measure it and fold its dirty flag into
the cache via logical OR. -/
def childMeasureFold {σ : Type} (o : ChildOracle σ) (reg : Entity → Bool) :
    List Entity → TextSelectionLayout × σ → TextSelectionLayout × σ
  | [], p => p
  | child :: rest, p =>
      childMeasureFold o reg rest
        (if reg child then
          match o.measure child p.2 with
          | (cds, w2) =>
              ({ p.1 with desired_size :=
                  p.1.desired_size.set_dirty (cds.dirty || p.1.desired_size.dirty) }, w2)
        else p)

/-- The world effect of one child-measure pass alone. -/
def measureWorldPass {σ : Type} (o : ChildOracle σ) (reg : Entity → Bool) :
    List Entity → σ → σ
  | [], w => w
  | child :: rest, w =>
      measureWorldPass o reg rest (if reg child then (o.measure child w).2 else w)

/-- The child-arrange loop of `arrange` (lines 149–153): each registered child
is arranged with this node's size as its parent size; only the world state is
threaded (the child's returned size is discarded). -/
def arrangeWorldPass {σ : Type} (o : ChildOracle σ) (reg : Entity → Bool)
    (size : ℚ × ℚ) : List Entity → σ → σ
  | [], w => w
  | child :: rest, w =>
      arrangeWorldPass o reg size rest (if reg child then (o.arrange size child w).2 else w)

/-- `TextSelectionLayout::measure`: the collapsed short-circuit, the selection
step, the first child pass, the constraint overwrites, the second child pass,
and the returned clone of the cache. Returns the `DirtySize`, the updated
strategy state, and the updated child world. -/
def TextSelectionLayout.measure {σ : Type} (self : TextSelectionLayout)
    (o : ChildOracle σ) (reg : Entity → Bool) (children : List Entity)
    (env : NodeEnv) (w : σ) : DirtySize × TextSelectionLayout × σ :=
  if env.visibility = Visibility.Collapsed then
    (self.desired_size.set_size 0 0,
      { self with desired_size := self.desired_size.set_size 0 0 }, w)
  else
    let p1 := childMeasureFold o reg children (selStep env self, w)
    let p2 := childMeasureFold o reg children
      (heightStep env.constraint (widthStep env.constraint p1.1), p1.2)
    (p2.1.desired_size, p2.1, p2.2)

/-- The caret position computation of `arrange` (lines 112, 122–143): `pos`
starts at 0; if the node has a `Text` property and a `TextSelection`
component, and the byte-range prefix of the text up to `start_index` exists,
`pos` becomes its measured pixel width, plus the `u32` half (integer division
by 2) of the measured width of `"a"` when the prefix ends with a space; then an
`Offset` component, when present, is added. -/
def caretPos (fm : FontMeasure) (env : NodeEnv) : ℚ :=
  let base : ℚ :=
    match env.text with
    | some text =>
        match env.selection with
        | some selection =>
            match strGetTo text selection.start_index with
            | some text_part =>
                let fs := f64_as_u32 env.font_size
                let p : ℚ := (fm text_part env.font fs : ℚ)
                if text_part.getLast? = some ' ' then
                  p + ((fm ['a'] env.font fs / 2 : ℕ) : ℚ)
                else p
            | none => 0
        | none => 0
    | none => 0
  match env.offset with
  | some off => base + off
  | none => base

/-- The size computed by a non-short-circuited `arrange` (lines 113–120): the
cached width, and the cached height resolved through
`vertical_alignment.align_height` against the parent height and the node's
margin (`Margin::get` resolves to the component or its zero default). -/
def arrangeSize (alignH : AlignHeight) (parent_size : ℚ × ℚ) (env : NodeEnv)
    (self : TextSelectionLayout) : ℚ × ℚ :=
  ((self.desired_size.size).1,
    alignH parent_size.2 (self.desired_size.size).2 (env.margin.getD ⟨0, 0, 0, 0⟩))

/-- The margin write of `arrange` (lines 145–147): when the entity has a
`Margin` component, its left component is set to the caret position. -/
def marginWrite (fm : FontMeasure) (env : NodeEnv) : NodeEnv :=
  match env.margin with
  | some m => { env with margin := some (m.set_left (caretPos fm env)) }
  | none => env

/-- The bounds write of `arrange` (lines 155–158): when the entity has a
`Bounds` component, its width and height are set to the arranged size. -/
def boundsWrite (size : ℚ × ℚ) (env : NodeEnv) : NodeEnv :=
  match env.bounds with
  | some b => { env with bounds := some { b with width := size.1, height := size.2 } }
  | none => env

/-- `TextSelectionLayout::arrange`: the clean-cache short-circuit, the
vertical-alignment height resolution, the caret position, the margin-left
write, the child-arrange loop, the bounds write, and the final clearing of the
dirty flag. Returns the size, the updated strategy state, the updated
component-store view, and the updated child world. -/
def TextSelectionLayout.arrange {σ : Type} (self : TextSelectionLayout)
    (o : ChildOracle σ) (reg : Entity → Bool) (children : List Entity)
    (alignH : AlignHeight) (fm : FontMeasure) (parent_size : ℚ × ℚ)
    (env : NodeEnv) (w : σ) : (ℚ × ℚ) × TextSelectionLayout × NodeEnv × σ :=
  if self.desired_size.dirty = false then
    (self.desired_size.size, self, env, w)
  else
    let size := arrangeSize alignH parent_size env self
    (size, { self with desired_size := self.desired_size.set_dirty false },
      boundsWrite size (marginWrite fm env),
      arrangeWorldPass o reg size children w)

/-- The caret position as the specification words it: the measured pixel width
of the prefix, plus half (exact, not integer) of the measured pixel width of a
single lowercase "a" glyph when the prefix ends with a space, plus the explicit
offset when present (0 otherwise). Stated from the specification's words for
comparison with `caretPos`, which is translated from the source. -/
def specCaretPos (fm : FontMeasure) (env : NodeEnv) (part : List Char) : ℚ :=
  (fm part env.font (f64_as_u32 env.font_size) : ℚ) +
    (if part.getLast? = some ' ' then
      ((fm ['a'] env.font (f64_as_u32 env.font_size) : ℕ) : ℚ) / 2
    else 0) +
    env.offset.getD 0

/-! ### Concrete instantiations used for counterexamples and witnesses -/

/-- A child oracle over a trivial world whose children are always clean. -/
def oUnit : ChildOracle Unit where
  measure := fun _ _ => (⟨0, 0, false⟩, ())
  arrange := fun _ _ _ => ((0, 0), ())

/-- A child oracle over a trivial world whose children always report dirty. -/
def oDirty : ChildOracle Unit where
  measure := fun _ _ => (⟨0, 0, true⟩, ())
  arrange := fun _ _ _ => ((0, 0), ())

/-- A registry with no entries. -/
def noReg : Entity → Bool := fun _ => false

/-- A registry with an entry for every entity. -/
def allReg : Entity → Bool := fun _ => true

/-- Modelled from the spec: a concrete vertical-alignment resolution (the
missing `VerticalAlignment::align_height`), behaving as the `Stretch` variant
does — the node is stretched to the parent-granted height less the vertical
margins. -/
def stretchAlign : AlignHeight := fun parent_height _ m => parent_height - m.top - m.bottom

/-- A font oracle measuring everything as zero pixels wide. -/
def fmZero : FontMeasure := fun _ _ _ => 0

/-- A font oracle with odd pixel widths: a text measures to twice its length
plus one, so the single glyph "a" measures to 3 pixels. -/
def fmOdd : FontMeasure := fun s _ _ => 2 * s.length + 1

/-- A node carrying only a text selection, used for the C1 counterexample. -/
def envC1 : NodeEnv :=
  { visibility := Visibility.Visible, constraint := ⟨0, 0⟩,
    selection := some ⟨3, 3⟩, text := none, font := "", font_size := 0,
    offset := none, margin := none, bounds := none }

/-- The measure call of the C1 counterexample: selection changed from the
cached ⟨0, 0⟩, so the cache comes out dirty. -/
def mC1 : DirtySize × TextSelectionLayout × Unit :=
  TextSelectionLayout.measure ⟨⟨10, 10, false⟩, ⟨0, 0⟩⟩ oUnit noReg [] envC1 ()

/-- The first arrange call of the C1 counterexample, on the dirty cache. -/
def a1C1 : (ℚ × ℚ) × TextSelectionLayout × NodeEnv × Unit :=
  TextSelectionLayout.arrange mC1.2.1 oUnit noReg [] stretchAlign fmZero (10, 30) envC1 ()

/-- The second arrange call of the C1 counterexample, with unchanged inputs. -/
def a2C1 : (ℚ × ℚ) × TextSelectionLayout × NodeEnv × Unit :=
  TextSelectionLayout.arrange a1C1.2.1 oUnit noReg [] stretchAlign fmZero (10, 30)
    a1C1.2.2.1 a1C1.2.2.2

/-- A node whose text is "x " with the selection at byte 2: the measured prefix
is the whole text and ends with a space. -/
def envC2 : NodeEnv :=
  { visibility := Visibility.Visible, constraint := ⟨0, 0⟩,
    selection := some ⟨2, 2⟩, text := some ['x', ' '], font := "sans",
    font_size := 12, offset := none, margin := some ⟨0, 0, 0, 0⟩, bounds := none }

/-- A node with a positive width constraint of 20 and no other inputs, while
the cache holds width 10: the constraint is observed as changed. -/
def envC5 : NodeEnv :=
  { visibility := Visibility.Visible, constraint := ⟨20, 0⟩,
    selection := none, text := none, font := "", font_size := 0,
    offset := none, margin := none, bounds := none }

/-- A node whose selection start (10) exceeds the 5-byte text "hello", with an
explicit offset of 7. -/
def envC7 : NodeEnv :=
  { visibility := Visibility.Visible, constraint := ⟨0, 0⟩,
    selection := some ⟨10, 10⟩, text := some ['h', 'e', 'l', 'l', 'o'],
    font := "", font_size := 12, offset := some 7,
    margin := some ⟨1, 2, 3, 4⟩, bounds := none }

/-- A node whose text is the two-byte character "é" and whose selection start
(1) falls strictly inside that character's byte run. -/
def envC10 : NodeEnv :=
  { visibility := Visibility.Visible, constraint := ⟨0, 0⟩,
    selection := some ⟨1, 1⟩, text := some ['é'],
    font := "", font_size := 12, offset := some 3,
    margin := some ⟨0, 0, 0, 0⟩, bounds := none }

/-! ### Helper lemmas about the measure steps -/

theorem selStep_width (env : NodeEnv) (self : TextSelectionLayout) :
    (selStep env self).desired_size.width = self.desired_size.width := by
  unfold selStep
  cases env.selection <;> simp [DirtySize.set_dirty]
  split <;> rfl

theorem selStep_height (env : NodeEnv) (self : TextSelectionLayout) :
    (selStep env self).desired_size.height = self.desired_size.height := by
  unfold selStep
  cases env.selection <;> simp [DirtySize.set_dirty]
  split <;> rfl

theorem selStep_dirty_mono (env : NodeEnv) (self : TextSelectionLayout)
    (h : self.desired_size.dirty = true) :
    (selStep env self).desired_size.dirty = true := by
  unfold selStep
  cases env.selection <;> simp [DirtySize.set_dirty, h]
  split <;> simp [h]

theorem selStep_dirty_of_ne (env : NodeEnv) (self : TextSelectionLayout)
    (sel : TextSelection) (hs : env.selection = some sel)
    (hne : sel ≠ self.old_text_selection) :
    (selStep env self).desired_size.dirty = true := by
  unfold selStep
  rw [hs]
  simp [hne, DirtySize.set_dirty]

theorem selStep_old (env : NodeEnv) (self : TextSelectionLayout)
    (sel : TextSelection) (hs : env.selection = some sel) :
    (selStep env self).old_text_selection = sel := by
  unfold selStep
  rw [hs]

theorem selStep_same (env : NodeEnv) (self : TextSelectionLayout)
    (hs : env.selection = some self.old_text_selection) :
    (selStep env self).desired_size = self.desired_size := by
  unfold selStep
  rw [hs]
  simp

theorem selStep_none (env : NodeEnv) (self : TextSelectionLayout)
    (hs : env.selection = none) : selStep env self = self := by
  unfold selStep
  rw [hs]

theorem widthStep_dirty (c : Constraint) (self : TextSelectionLayout) :
    (widthStep c self).desired_size.dirty = self.desired_size.dirty := by
  unfold widthStep
  split <;> rfl

theorem widthStep_height (c : Constraint) (self : TextSelectionLayout) :
    (widthStep c self).desired_size.height = self.desired_size.height := by
  unfold widthStep
  split <;> rfl

theorem widthStep_old (c : Constraint) (self : TextSelectionLayout) :
    (widthStep c self).old_text_selection = self.old_text_selection := by
  unfold widthStep
  split <;> rfl

theorem widthStep_width (c : Constraint) (self : TextSelectionLayout) :
    (widthStep c self).desired_size.width =
      if c.width > 0 then c.width else self.desired_size.width := by
  unfold widthStep
  split <;> rfl

theorem heightStep_dirty (c : Constraint) (self : TextSelectionLayout) :
    (heightStep c self).desired_size.dirty = self.desired_size.dirty := by
  unfold heightStep
  split <;> rfl

theorem heightStep_width (c : Constraint) (self : TextSelectionLayout) :
    (heightStep c self).desired_size.width = self.desired_size.width := by
  unfold heightStep
  split <;> rfl

theorem heightStep_old (c : Constraint) (self : TextSelectionLayout) :
    (heightStep c self).old_text_selection = self.old_text_selection := by
  unfold heightStep
  split <;> rfl

theorem heightStep_height (c : Constraint) (self : TextSelectionLayout) :
    (heightStep c self).desired_size.height =
      if c.height > 0 then c.height else self.desired_size.height := by
  unfold heightStep
  split <;> rfl

/-! ### Helper lemmas about the child-measure fold -/

theorem childMeasureFold_world {σ : Type} (o : ChildOracle σ) (reg : Entity → Bool)
    (cs : List Entity) (p : TextSelectionLayout × σ) :
    (childMeasureFold o reg cs p).2 = measureWorldPass o reg cs p.2 := by
  induction cs generalizing p with
  | nil => rfl
  | cons c rest ih =>
      unfold childMeasureFold measureWorldPass
      by_cases h : reg c = true <;> simp [h, ih]

theorem childMeasureFold_width {σ : Type} (o : ChildOracle σ) (reg : Entity → Bool)
    (cs : List Entity) (p : TextSelectionLayout × σ) :
    (childMeasureFold o reg cs p).1.desired_size.width = p.1.desired_size.width := by
  induction cs generalizing p with
  | nil => rfl
  | cons c rest ih =>
      unfold childMeasureFold
      by_cases h : reg c = true <;> simp [h, ih, DirtySize.set_dirty]

theorem childMeasureFold_height {σ : Type} (o : ChildOracle σ) (reg : Entity → Bool)
    (cs : List Entity) (p : TextSelectionLayout × σ) :
    (childMeasureFold o reg cs p).1.desired_size.height = p.1.desired_size.height := by
  induction cs generalizing p with
  | nil => rfl
  | cons c rest ih =>
      unfold childMeasureFold
      by_cases h : reg c = true <;> simp [h, ih, DirtySize.set_dirty]

theorem childMeasureFold_old {σ : Type} (o : ChildOracle σ) (reg : Entity → Bool)
    (cs : List Entity) (p : TextSelectionLayout × σ) :
    (childMeasureFold o reg cs p).1.old_text_selection = p.1.old_text_selection := by
  induction cs generalizing p with
  | nil => rfl
  | cons c rest ih =>
      unfold childMeasureFold
      by_cases h : reg c = true <;> simp [h, ih]

theorem childMeasureFold_dirty_mono {σ : Type} (o : ChildOracle σ) (reg : Entity → Bool)
    (cs : List Entity) (p : TextSelectionLayout × σ)
    (h : p.1.desired_size.dirty = true) :
    (childMeasureFold o reg cs p).1.desired_size.dirty = true := by
  induction cs generalizing p with
  | nil => exact h
  | cons c rest ih =>
      unfold childMeasureFold
      by_cases hr : reg c = true
      · simp only [hr, if_pos]
        exact ih _ (by simp [DirtySize.set_dirty, h])
      · simp only [hr]
        exact ih _ h

theorem childMeasureFold_dirty_of_mem {σ : Type} (o : ChildOracle σ) (reg : Entity → Bool)
    (cs : List Entity) (p : TextSelectionLayout × σ) (c : Entity)
    (hmem : c ∈ cs) (hr : reg c = true)
    (hc : ∀ w' : σ, (o.measure c w').1.dirty = true) :
    (childMeasureFold o reg cs p).1.desired_size.dirty = true := by
  induction cs generalizing p with
  | nil => cases hmem
  | cons d rest ih =>
      unfold childMeasureFold
      rcases List.mem_cons.mp hmem with hdc | hmem'
      · subst hdc
        simp only [hr, if_pos]
        exact childMeasureFold_dirty_mono o reg rest _ (by simp [DirtySize.set_dirty, hc])
      · by_cases hd : reg d = true
        · simp only [hd, if_pos]
          exact ih _ hmem'
        · simp only [hd]
          exact ih _ hmem'

/-! ### Characterizations of measure and arrange -/

theorem measure_not_collapsed {σ : Type} (self : TextSelectionLayout)
    (o : ChildOracle σ) (reg : Entity → Bool) (children : List Entity)
    (env : NodeEnv) (w : σ) (h : env.visibility ≠ Visibility.Collapsed) :
    self.measure o reg children env w =
      ((childMeasureFold o reg children
          (heightStep env.constraint (widthStep env.constraint
            (childMeasureFold o reg children (selStep env self, w)).1),
            (childMeasureFold o reg children (selStep env self, w)).2)).1.desired_size,
        (childMeasureFold o reg children
          (heightStep env.constraint (widthStep env.constraint
            (childMeasureFold o reg children (selStep env self, w)).1),
            (childMeasureFold o reg children (selStep env self, w)).2)).1,
        (childMeasureFold o reg children
          (heightStep env.constraint (widthStep env.constraint
            (childMeasureFold o reg children (selStep env self, w)).1),
            (childMeasureFold o reg children (selStep env self, w)).2)).2) := by
  unfold TextSelectionLayout.measure
  rw [if_neg h]

theorem measure_collapsed_eq {σ : Type} (self : TextSelectionLayout)
    (o : ChildOracle σ) (reg : Entity → Bool) (children : List Entity)
    (env : NodeEnv) (w : σ) (h : env.visibility = Visibility.Collapsed) :
    self.measure o reg children env w =
      (self.desired_size.set_size 0 0,
        { self with desired_size := self.desired_size.set_size 0 0 }, w) := by
  unfold TextSelectionLayout.measure
  rw [if_pos h]

theorem arrange_clean {σ : Type} (self : TextSelectionLayout)
    (o : ChildOracle σ) (reg : Entity → Bool) (children : List Entity)
    (alignH : AlignHeight) (fm : FontMeasure) (parent_size : ℚ × ℚ)
    (env : NodeEnv) (w : σ) (h : self.desired_size.dirty = false) :
    self.arrange o reg children alignH fm parent_size env w =
      (self.desired_size.size, self, env, w) := by
  unfold TextSelectionLayout.arrange
  rw [if_pos h]

theorem arrange_run {σ : Type} (self : TextSelectionLayout)
    (o : ChildOracle σ) (reg : Entity → Bool) (children : List Entity)
    (alignH : AlignHeight) (fm : FontMeasure) (parent_size : ℚ × ℚ)
    (env : NodeEnv) (w : σ) (h : self.desired_size.dirty = true) :
    self.arrange o reg children alignH fm parent_size env w =
      (arrangeSize alignH parent_size env self,
        { self with desired_size := self.desired_size.set_dirty false },
        boundsWrite (arrangeSize alignH parent_size env self) (marginWrite fm env),
        arrangeWorldPass o reg (arrangeSize alignH parent_size env self) children w) := by
  unfold TextSelectionLayout.arrange
  rw [if_neg (by simp [h])]

/-! ### Helper lemmas about the byte-offset substring -/

theorem strGetTo_none_of_lt (t : List Char) (i : Nat) (h : utf8Len t < i) :
    strGetTo t i = none := by
  induction t generalizing i with
  | nil =>
      cases i with
      | zero => cases h
      | succ j => rfl
  | cons c rest ih =>
      cases i with
      | zero => cases h
      | succ j =>
          unfold strGetTo
          by_cases hc : j + 1 < c.utf8Size
          · rw [if_pos hc]
          · rw [if_neg hc]
            have h' : utf8Len rest < j + 1 - c.utf8Size := by
              simp only [utf8Len, List.map_cons, List.sum_cons] at h ⊢
              omega
            rw [ih _ h']
            rfl

theorem strGetTo_none_of_not_boundary (t : List Char) (i : Nat)
    (h : isCharBoundary t i = false) : strGetTo t i = none := by
  induction t generalizing i with
  | nil =>
      cases i with
      | zero => cases h
      | succ j => rfl
  | cons c rest ih =>
      cases i with
      | zero => cases h
      | succ j =>
          unfold strGetTo
          unfold isCharBoundary at h
          by_cases hc : j + 1 < c.utf8Size
          · rw [if_pos hc]
          · rw [if_neg hc]
            rw [if_neg hc] at h
            rw [ih _ h]
            rfl

/-! ### Helper lemmas about the caret position -/

theorem caretPos_of_part (fm : FontMeasure) (env : NodeEnv)
    (t part : List Char) (sel : TextSelection)
    (ht : env.text = some t) (hs : env.selection = some sel)
    (hp : strGetTo t sel.start_index = some part) :
    caretPos fm env =
      (fm part env.font (f64_as_u32 env.font_size) : ℚ) +
        (if part.getLast? = some ' ' then
          ((fm ['a'] env.font (f64_as_u32 env.font_size) / 2 : ℕ) : ℚ)
        else 0) +
        env.offset.getD 0 := by
  unfold caretPos
  rw [ht, hs]
  simp only [hp]
  cases env.offset with
  | none => by_cases hsp : part.getLast? = some ' ' <;> simp [hsp]
  | some off => by_cases hsp : part.getLast? = some ' ' <;> simp [hsp]

theorem caretPos_skip_text (fm : FontMeasure) (env : NodeEnv)
    (ht : env.text = none) : caretPos fm env = env.offset.getD 0 := by
  unfold caretPos
  rw [ht]
  cases env.offset <;> simp

theorem caretPos_skip_selection (fm : FontMeasure) (env : NodeEnv)
    (t : List Char) (ht : env.text = some t) (hs : env.selection = none) :
    caretPos fm env = env.offset.getD 0 := by
  unfold caretPos
  rw [ht, hs]
  cases env.offset <;> simp

theorem caretPos_skip_oob (fm : FontMeasure) (env : NodeEnv)
    (t : List Char) (sel : TextSelection)
    (ht : env.text = some t) (hs : env.selection = some sel)
    (hp : strGetTo t sel.start_index = none) :
    caretPos fm env = env.offset.getD 0 := by
  unfold caretPos
  rw [ht, hs]
  simp only [hp]
  cases env.offset <;> simp

theorem marginWrite_margin (fm : FontMeasure) (env : NodeEnv) (m : Margin)
    (hm : env.margin = some m) :
    (marginWrite fm env).margin = some (m.set_left (caretPos fm env)) := by
  unfold marginWrite
  rw [hm]

theorem marginWrite_margin_none (fm : FontMeasure) (env : NodeEnv)
    (hm : env.margin = none) : (marginWrite fm env).margin = none := by
  unfold marginWrite
  rw [hm]
  exact hm

theorem marginWrite_bounds (fm : FontMeasure) (env : NodeEnv) :
    (marginWrite fm env).bounds = env.bounds := by
  unfold marginWrite
  cases env.margin <;> rfl

theorem boundsWrite_margin (size : ℚ × ℚ) (env : NodeEnv) :
    (boundsWrite size env).margin = env.margin := by
  unfold boundsWrite
  cases env.bounds <;> rfl

theorem boundsWrite_bounds_none (size : ℚ × ℚ) (env : NodeEnv)
    (hb : env.bounds = none) : (boundsWrite size env).bounds = none := by
  unfold boundsWrite
  rw [hb]
  exact hb

/-! ### The claims -/

/-- C1 (amended): when the cached dirty flag is false, `arrange` returns the
cached size unchanged, writes neither margin nor bounds, and does not recurse
into children; when the flag is true, `arrange` clears it (its cached size
untouched) and returns the cached width; consequently a second `arrange`
after a first one that ran short-circuits, performing no writes and returning
the cached measured size — whose width always equals the first call's returned
width, though its height is the cached one, not the vertically aligned one. -/
theorem arrange_short_circuit_and_clear {σ : Type} (self : TextSelectionLayout)
    (o : ChildOracle σ) (reg : Entity → Bool) (children : List Entity)
    (alignH : AlignHeight) (fm : FontMeasure) (parent_size : ℚ × ℚ)
    (env : NodeEnv) (w : σ) :
    (self.desired_size.dirty = false →
      self.arrange o reg children alignH fm parent_size env w =
        (self.desired_size.size, self, env, w)) ∧
    (self.desired_size.dirty = true →
      (self.arrange o reg children alignH fm parent_size env w).2.1.desired_size.dirty
          = false ∧
      (self.arrange o reg children alignH fm parent_size env w).2.1.desired_size.width
          = self.desired_size.width ∧
      (self.arrange o reg children alignH fm parent_size env w).2.1.desired_size.height
          = self.desired_size.height ∧
      (self.arrange o reg children alignH fm parent_size env w).1.1
          = self.desired_size.width) ∧
    (self.desired_size.dirty = true →
      ((self.arrange o reg children alignH fm parent_size env w).2.1.arrange o reg
          children alignH fm parent_size
          (self.arrange o reg children alignH fm parent_size env w).2.2.1
          (self.arrange o reg children alignH fm parent_size env w).2.2.2) =
        ((self.desired_size.width, self.desired_size.height),
          (self.arrange o reg children alignH fm parent_size env w).2.1,
          (self.arrange o reg children alignH fm parent_size env w).2.2.1,
          (self.arrange o reg children alignH fm parent_size env w).2.2.2)) := by
  refine ⟨?_, ?_, ?_⟩
  · intro hd
    exact arrange_clean self o reg children alignH fm parent_size env w hd
  · intro hd
    rw [arrange_run self o reg children alignH fm parent_size env w hd]
    exact ⟨rfl, rfl, rfl, rfl⟩
  · intro hd
    rw [arrange_run self o reg children alignH fm parent_size env w hd]
    rw [arrange_clean _ o reg children alignH fm parent_size _ _ rfl]
    rfl

/-- C1 witness: on a clean cache, a concrete `arrange` call returns the cached
size with the store view and child world unchanged. -/
theorem arrange_short_circuit_and_clear_witness :
    TextSelectionLayout.arrange ⟨⟨10, 10, false⟩, ⟨0, 0⟩⟩ oUnit noReg []
        stretchAlign fmZero (10, 30) envC1 () =
      ((10, 10), ⟨⟨10, 10, false⟩, ⟨0, 0⟩⟩, envC1, ()) := by
  have h := (arrange_short_circuit_and_clear ⟨⟨10, 10, false⟩, ⟨0, 0⟩⟩ oUnit noReg []
    stretchAlign fmZero (10, 30) envC1 ()).1 rfl
  exact h

/-- C1 counterexample: with the default-like stretch vertical alignment, a
measure+arrange pass followed by a second `arrange` with unchanged inputs does
not return the identical size — the first call returns the aligned height 30,
the short-circuited second call the cached height 10. -/
theorem arrange_second_size_counterexample :
    a1C1.1 = (10, 30) ∧ a2C1.1 = (10, 10) ∧ a1C1.1 ≠ a2C1.1 := by
  have hm : mC1.2.1 = ⟨⟨10, 10, true⟩, ⟨3, 3⟩⟩ := by decide
  have h1 : a1C1.1 = (10, 30) := by
    show (TextSelectionLayout.arrange mC1.2.1 oUnit noReg [] stretchAlign fmZero
      (10, 30) envC1 ()).1 = (10, 30)
    rw [hm, arrange_run ⟨⟨10, 10, true⟩, ⟨3, 3⟩⟩ oUnit noReg [] stretchAlign fmZero
      (10, 30) envC1 () rfl]
    show arrangeSize stretchAlign (10, 30) envC1 ⟨⟨10, 10, true⟩, ⟨3, 3⟩⟩ = (10, 30)
    unfold arrangeSize stretchAlign
    norm_num [envC1, DirtySize.size, Prod.ext_iff]
  have h2 : a1C1.2.1 = ⟨⟨10, 10, false⟩, ⟨3, 3⟩⟩ := by
    show (TextSelectionLayout.arrange mC1.2.1 oUnit noReg [] stretchAlign fmZero
      (10, 30) envC1 ()).2.1 = _
    rw [hm, arrange_run ⟨⟨10, 10, true⟩, ⟨3, 3⟩⟩ oUnit noReg [] stretchAlign fmZero
      (10, 30) envC1 () rfl]
    rfl
  have h3 : a2C1.1 = (10, 10) := by
    show (TextSelectionLayout.arrange a1C1.2.1 oUnit noReg [] stretchAlign fmZero
      (10, 30) a1C1.2.2.1 a1C1.2.2.2).1 = (10, 10)
    rw [h2, arrange_clean _ oUnit noReg [] stretchAlign fmZero (10, 30) _ _ rfl]
    rfl
  refine ⟨h1, h3, ?_⟩
  rw [h1, h3]
  decide

/-- C2 (amended): when the prefix of the text up to the selection start exists,
a non-short-circuited `arrange` sets the node's margin-left to the measured
pixel width of the prefix, plus — when the prefix ends with a space — the
integer half (rounded down, `u32` division by 2) of the measured pixel width of
a single lowercase "a" glyph, plus the explicit offset when present. -/
theorem arrange_caret_pos {σ : Type} (self : TextSelectionLayout)
    (o : ChildOracle σ) (reg : Entity → Bool) (children : List Entity)
    (alignH : AlignHeight) (fm : FontMeasure) (parent_size : ℚ × ℚ)
    (env : NodeEnv) (w : σ) (t part : List Char) (sel : TextSelection) (m : Margin)
    (hd : self.desired_size.dirty = true)
    (ht : env.text = some t) (hs : env.selection = some sel)
    (hm : env.margin = some m)
    (hp : strGetTo t sel.start_index = some part) :
    (self.arrange o reg children alignH fm parent_size env w).2.2.1.margin =
      some (m.set_left
        ((fm part env.font (f64_as_u32 env.font_size) : ℚ) +
          (if part.getLast? = some ' ' then
            ((fm ['a'] env.font (f64_as_u32 env.font_size) / 2 : ℕ) : ℚ)
          else 0) +
          env.offset.getD 0)) := by
  simp only [arrange_run self o reg children alignH fm parent_size env w hd,
    boundsWrite_margin, marginWrite_margin fm env m hm,
    caretPos_of_part fm env t part sel ht hs hp]

/-- C2 witness: text "x ", selection start 2, prefix width 5, "a" width 3, no
offset — the margin-left becomes 5 + 3/2 rounded down = 6. -/
theorem arrange_caret_pos_witness :
    (TextSelectionLayout.arrange ⟨⟨4, 4, true⟩, ⟨0, 0⟩⟩ oUnit noReg []
        stretchAlign fmOdd (100, 100) envC2 ()).2.2.1.margin =
      some ⟨6, 0, 0, 0⟩ := by
  have h := arrange_caret_pos ⟨⟨4, 4, true⟩, ⟨0, 0⟩⟩ oUnit noReg []
    stretchAlign fmOdd (100, 100) envC2 () ['x', ' '] ['x', ' '] ⟨2, 2⟩ ⟨0, 0, 0, 0⟩
    rfl rfl rfl rfl rfl
  refine h.trans ?_
  have e1 : fmOdd ['x', ' '] envC2.font (f64_as_u32 envC2.font_size) = 5 := rfl
  have e2 : fmOdd ['a'] envC2.font (f64_as_u32 envC2.font_size) / 2 = 1 := rfl
  rw [e1, e2]
  norm_num [envC2, Margin.set_left]

/-- C2 counterexample: with the "a" glyph measuring to the odd width 3, the
margin-left actually written (6) is not the prefix width plus the exact half
of the "a" width plus the offset (13/2), so the claim as worded fails. -/
theorem arrange_caret_half_counterexample :
    (TextSelectionLayout.arrange ⟨⟨4, 4, true⟩, ⟨0, 0⟩⟩ oUnit noReg []
        stretchAlign fmOdd (100, 100) envC2 ()).2.2.1.margin.map Margin.left
        = some 6 ∧
    specCaretPos fmOdd envC2 ['x', ' '] = 13 / 2 ∧
    (TextSelectionLayout.arrange ⟨⟨4, 4, true⟩, ⟨0, 0⟩⟩ oUnit noReg []
        stretchAlign fmOdd (100, 100) envC2 ()).2.2.1.margin.map Margin.left
        ≠ some (specCaretPos fmOdd envC2 ['x', ' ']) := by
  have e1 : fmOdd ['x', ' '] envC2.font (f64_as_u32 envC2.font_size) = 5 := rfl
  have e2 : fmOdd ['a'] envC2.font (f64_as_u32 envC2.font_size) / 2 = 1 := rfl
  have e3 : fmOdd ['a'] envC2.font (f64_as_u32 envC2.font_size) = 3 := rfl
  have hmargin : (TextSelectionLayout.arrange ⟨⟨4, 4, true⟩, ⟨0, 0⟩⟩ oUnit noReg []
      stretchAlign fmOdd (100, 100) envC2 ()).2.2.1.margin =
      some (Margin.set_left ⟨0, 0, 0, 0⟩ 6) := by
    simp only [arrange_run ⟨⟨4, 4, true⟩, ⟨0, 0⟩⟩ oUnit noReg [] stretchAlign fmOdd
        (100, 100) envC2 () rfl,
      boundsWrite_margin, marginWrite_margin fmOdd envC2 ⟨0, 0, 0, 0⟩ rfl,
      caretPos_of_part fmOdd envC2 ['x', ' '] ['x', ' '] ⟨2, 2⟩ rfl rfl rfl]
    rw [e1, e2]
    norm_num [envC2, Margin.set_left]
  have hspec : specCaretPos fmOdd envC2 ['x', ' '] = 13 / 2 := by
    unfold specCaretPos
    rw [e1, e3]
    norm_num [envC2]
  refine ⟨?_, hspec, ?_⟩
  · rw [hmargin]
    rfl
  · rw [hmargin, hspec]
    norm_num [Margin.set_left]

/-- C3: for a non-collapsed node, `measure` recurses into every registered
child in both passes (the child world after `measure` is exactly two full
passes over the children), never turns the dirty flag from true to false, and
reports dirty whenever some registered child among the children always
measures dirty. -/
theorem measure_child_dirty_fold {σ : Type} (self : TextSelectionLayout)
    (o : ChildOracle σ) (reg : Entity → Bool) (children : List Entity)
    (env : NodeEnv) (w : σ) (h : env.visibility ≠ Visibility.Collapsed) :
    (self.measure o reg children env w).2.2 =
      measureWorldPass o reg children (measureWorldPass o reg children w) ∧
    (self.desired_size.dirty = true →
      (self.measure o reg children env w).1.dirty = true) ∧
    (∀ c ∈ children, reg c = true →
      (∀ w' : σ, (o.measure c w').1.dirty = true) →
      (self.measure o reg children env w).1.dirty = true) := by
  refine ⟨?_, ?_, ?_⟩
  · simp only [measure_not_collapsed self o reg children env w h, childMeasureFold_world]
  · intro hd
    simp only [measure_not_collapsed self o reg children env w h]
    apply childMeasureFold_dirty_mono
    simp only [heightStep_dirty, widthStep_dirty]
    exact childMeasureFold_dirty_mono o reg children _ (selStep_dirty_mono env self hd)
  · intro c hmem hr hc
    simp only [measure_not_collapsed self o reg children env w h]
    exact childMeasureFold_dirty_of_mem o reg children _ c hmem hr hc

/-- C3 witness: a clean node with one registered, always-dirty child reports
dirty, and its child world records both passes. -/
theorem measure_child_dirty_fold_witness :
    (TextSelectionLayout.measure ⟨⟨5, 5, false⟩, ⟨0, 0⟩⟩ oDirty allReg [0] envC5 ()).1.dirty
      = true := by
  have h := measure_child_dirty_fold ⟨⟨5, 5, false⟩, ⟨0, 0⟩⟩ oDirty allReg [0] envC5 ()
    (by decide)
  exact h.2.2 0 (by decide) rfl (fun w' => rfl)

/-- C4: for a non-collapsed node with a text-selection component, `measure`
marks the cache dirty when the selection differs from the cached prior one,
unconditionally stores the current selection, and — for a childless node whose
selection equals the cached one on a clean cache — does not set dirty again. -/
theorem measure_selection_change {σ : Type} (self : TextSelectionLayout)
    (o : ChildOracle σ) (reg : Entity → Bool) (children : List Entity)
    (env : NodeEnv) (w : σ) (sel : TextSelection)
    (h : env.visibility ≠ Visibility.Collapsed) (hs : env.selection = some sel) :
    (self.measure o reg children env w).2.1.old_text_selection = sel ∧
    (sel ≠ self.old_text_selection →
      (self.measure o reg children env w).1.dirty = true) ∧
    (children = [] → sel = self.old_text_selection →
      self.desired_size.dirty = false →
      (self.measure o reg children env w).1.dirty = false) := by
  refine ⟨?_, ?_, ?_⟩
  · simp only [measure_not_collapsed self o reg children env w h, childMeasureFold_old,
      heightStep_old, widthStep_old]
    exact selStep_old env self sel hs
  · intro hne
    simp only [measure_not_collapsed self o reg children env w h]
    apply childMeasureFold_dirty_mono
    simp only [heightStep_dirty, widthStep_dirty]
    exact childMeasureFold_dirty_mono o reg children _
      (selStep_dirty_of_ne env self sel hs hne)
  · intro hch hEq hdf
    subst hch
    simp only [measure_not_collapsed self o reg [] env w h, childMeasureFold,
      heightStep_dirty, widthStep_dirty]
    rw [selStep_same env self (by rw [hs, hEq])]
    exact hdf

/-- C4 witness: changing the selection start from 0 to 6 dirties the cache and
updates the cached prior selection. -/
theorem measure_selection_change_witness :
    (TextSelectionLayout.measure ⟨⟨5, 5, false⟩, ⟨0, 0⟩⟩ oUnit noReg []
        { envC5 with selection := some ⟨6, 6⟩ } ()).2.1.old_text_selection = ⟨6, 6⟩ ∧
    (TextSelectionLayout.measure ⟨⟨5, 5, false⟩, ⟨0, 0⟩⟩ oUnit noReg []
        { envC5 with selection := some ⟨6, 6⟩ } ()).1.dirty = true := by
  have h := measure_selection_change ⟨⟨5, 5, false⟩, ⟨0, 0⟩⟩ oUnit noReg []
    { envC5 with selection := some ⟨6, 6⟩ } () ⟨6, 6⟩ (by decide) rfl
  exact ⟨h.1, h.2.1 (by decide)⟩

/-- C5 counterexample: with a clean cache of width 10 and a changed positive
constraint width of 20, `measure` overwrites the cached width but leaves the
dirty flag false, so the claimed invariant fails for constraint changes. -/
theorem measure_constraint_dirty_counterexample :
    (TextSelectionLayout.measure ⟨⟨10, 10, false⟩, ⟨0, 0⟩⟩ oUnit noReg [] envC5 ()).1 =
      ⟨20, 10, false⟩ ∧ ((20 : ℚ) ≠ 10) := by decide

/-- C5 (amended): the dirty flag tracks selection changes and descendants'
dirty flags but not constraint changes: a childless `measure` whose selection
input is absent or unchanged leaves the dirty flag exactly as it was, even
while a positive constraint width overwrites the returned width. -/
theorem measure_constraint_keeps_dirty {σ : Type} (self : TextSelectionLayout)
    (o : ChildOracle σ) (reg : Entity → Bool) (env : NodeEnv) (w : σ)
    (h : env.visibility ≠ Visibility.Collapsed)
    (hs : env.selection = none ∨ env.selection = some self.old_text_selection) :
    (self.measure o reg [] env w).1.dirty = self.desired_size.dirty ∧
    (env.constraint.width > 0 →
      (self.measure o reg [] env w).1.width = env.constraint.width) := by
  constructor
  · simp only [measure_not_collapsed self o reg [] env w h, childMeasureFold,
      heightStep_dirty, widthStep_dirty]
    rcases hs with hs | hs
    · rw [selStep_none env self hs]
    · rw [selStep_same env self hs]
  · intro hw
    simp only [measure_not_collapsed self o reg [] env w h, childMeasureFold,
      heightStep_width, widthStep_width]
    rw [if_pos hw]

/-- C5 witness: the concrete changed-constraint measure of the counterexample,
through the amended statement — dirty stays false while the width becomes 20. -/
theorem measure_constraint_keeps_dirty_witness :
    (TextSelectionLayout.measure ⟨⟨10, 10, false⟩, ⟨0, 0⟩⟩ oUnit noReg [] envC5 ()).1.dirty
        = false ∧
    (TextSelectionLayout.measure ⟨⟨10, 10, false⟩, ⟨0, 0⟩⟩ oUnit noReg [] envC5 ()).1.width
        = 20 := by
  have h := measure_constraint_keeps_dirty ⟨⟨10, 10, false⟩, ⟨0, 0⟩⟩ oUnit noReg envC5 ()
    (by decide) (Or.inl rfl)
  exact ⟨h.1, h.2 (by decide)⟩

/-- C6: for a non-collapsed node, a positive constraint width overwrites the
returned width (and likewise for the height); on an axis whose constraint is 0
or negative the previously cached dimension is returned unchanged. -/
theorem measure_constraint_overwrite {σ : Type} (self : TextSelectionLayout)
    (o : ChildOracle σ) (reg : Entity → Bool) (children : List Entity)
    (env : NodeEnv) (w : σ) (h : env.visibility ≠ Visibility.Collapsed) :
    (self.measure o reg children env w).1.width =
      (if env.constraint.width > 0 then env.constraint.width
        else self.desired_size.width) ∧
    (self.measure o reg children env w).1.height =
      (if env.constraint.height > 0 then env.constraint.height
        else self.desired_size.height) := by
  constructor
  · simp only [measure_not_collapsed self o reg children env w h, childMeasureFold_width,
      heightStep_width, widthStep_width, selStep_width]
  · simp only [measure_not_collapsed self o reg children env w h, childMeasureFold_height,
      heightStep_height, widthStep_height, selStep_height]

/-- C6 witness: constraint width 20 wins over the cached width 10, while the
unconstrained height keeps the cached 10. -/
theorem measure_constraint_overwrite_witness :
    (TextSelectionLayout.measure ⟨⟨10, 10, false⟩, ⟨0, 0⟩⟩ oUnit noReg [] envC5 ()).1.width
        = 20 ∧
    (TextSelectionLayout.measure ⟨⟨10, 10, false⟩, ⟨0, 0⟩⟩ oUnit noReg [] envC5 ()).1.height
        = 10 := by
  have h := measure_constraint_overwrite ⟨⟨10, 10, false⟩, ⟨0, 0⟩⟩ oUnit noReg [] envC5 ()
    (by decide)
  refine ⟨h.1.trans (by decide), h.2.trans (by decide)⟩

/-- C7: on a dirty cache, a selection start beyond the text's byte length, an
absent text, or an absent selection each skip the caret measurement — the
margin-left written is the explicit offset (0 when absent); an absent margin or
bounds component is simply not written, and the call completes normally. -/
theorem arrange_missing_skip {σ : Type} (self : TextSelectionLayout)
    (o : ChildOracle σ) (reg : Entity → Bool) (children : List Entity)
    (alignH : AlignHeight) (fm : FontMeasure) (parent_size : ℚ × ℚ)
    (env : NodeEnv) (w : σ) (hd : self.desired_size.dirty = true) :
    (∀ t sel m, env.text = some t → env.selection = some sel →
      env.margin = some m → utf8Len t < sel.start_index →
      (self.arrange o reg children alignH fm parent_size env w).2.2.1.margin =
        some (m.set_left (env.offset.getD 0))) ∧
    (∀ m, env.text = none → env.margin = some m →
      (self.arrange o reg children alignH fm parent_size env w).2.2.1.margin =
        some (m.set_left (env.offset.getD 0))) ∧
    (∀ t m, env.text = some t → env.selection = none → env.margin = some m →
      (self.arrange o reg children alignH fm parent_size env w).2.2.1.margin =
        some (m.set_left (env.offset.getD 0))) ∧
    (env.margin = none →
      (self.arrange o reg children alignH fm parent_size env w).2.2.1.margin = none) ∧
    (env.bounds = none →
      (self.arrange o reg children alignH fm parent_size env w).2.2.1.bounds = none) := by
  refine ⟨?_, ?_, ?_, ?_, ?_⟩
  · intro t sel m ht hsel hm hlen
    simp only [arrange_run self o reg children alignH fm parent_size env w hd,
      boundsWrite_margin, marginWrite_margin fm env m hm,
      caretPos_skip_oob fm env t sel ht hsel
        (strGetTo_none_of_lt t sel.start_index hlen)]
  · intro m ht hm
    simp only [arrange_run self o reg children alignH fm parent_size env w hd,
      boundsWrite_margin, marginWrite_margin fm env m hm, caretPos_skip_text fm env ht]
  · intro t m ht hsel hm
    simp only [arrange_run self o reg children alignH fm parent_size env w hd,
      boundsWrite_margin, marginWrite_margin fm env m hm,
      caretPos_skip_selection fm env t ht hsel]
  · intro hm
    simp only [arrange_run self o reg children alignH fm parent_size env w hd,
      boundsWrite_margin, marginWrite_margin_none fm env hm]
  · intro hb
    simp only [arrange_run self o reg children alignH fm parent_size env w hd]
    apply boundsWrite_bounds_none
    simp only [marginWrite_bounds, hb]

/-- C7 witness: selection start 10 on the 5-byte text "hello" with explicit
offset 7 — the margin-left becomes exactly 7, with no measurement
contribution. -/
theorem arrange_missing_skip_witness :
    (TextSelectionLayout.arrange ⟨⟨4, 4, true⟩, ⟨0, 0⟩⟩ oUnit noReg []
        stretchAlign fmOdd (100, 100) envC7 ()).2.2.1.margin =
      some ⟨7, 2, 3, 4⟩ := by
  have h := (arrange_missing_skip ⟨⟨4, 4, true⟩, ⟨0, 0⟩⟩ oUnit noReg []
    stretchAlign fmOdd (100, 100) envC7 () rfl).1
    ['h', 'e', 'l', 'l', 'o'] ⟨10, 10⟩ ⟨1, 2, 3, 4⟩ rfl rfl rfl (by decide)
  exact h.trans (by decide)

/-- C8: for a collapsed node, `measure` forces the cached size to (0, 0) and
returns at once: the result and the updated state are fully determined by the
prior cache — the child world is unchanged (no child measured), the cached
prior selection is untouched (no comparison), and the result is the same under
any other collapsed store view (no constraint, selection or text is read). -/
theorem measure_collapsed_zero {σ : Type} (self : TextSelectionLayout)
    (o : ChildOracle σ) (reg : Entity → Bool) (children : List Entity)
    (env env' : NodeEnv) (w : σ) (h : env.visibility = Visibility.Collapsed)
    (h' : env'.visibility = Visibility.Collapsed) :
    self.measure o reg children env w =
      (self.desired_size.set_size 0 0,
        { self with desired_size := self.desired_size.set_size 0 0 }, w) ∧
    (self.measure o reg children env w).1.size = (0, 0) ∧
    self.measure o reg children env w = self.measure o reg children env' w := by
  refine ⟨measure_collapsed_eq self o reg children env w h, ?_, ?_⟩
  · rw [measure_collapsed_eq self o reg children env w h]
    rfl
  · rw [measure_collapsed_eq self o reg children env w h,
      measure_collapsed_eq self o reg children env' w h']

/-- C8 witness: a collapsed node with cached size (10, 10), a positive
constraint and a changed selection still measures to (0, 0) with the child
world untouched. -/
theorem measure_collapsed_zero_witness :
    (TextSelectionLayout.measure ⟨⟨10, 10, false⟩, ⟨0, 0⟩⟩ oDirty allReg [0]
        { envC5 with visibility := Visibility.Collapsed, selection := some ⟨6, 6⟩ }
        ()).1.size = (0, 0) := by
  exact (measure_collapsed_zero ⟨⟨10, 10, false⟩, ⟨0, 0⟩⟩ oDirty allReg [0]
    { envC5 with visibility := Visibility.Collapsed, selection := some ⟨6, 6⟩ }
    { envC5 with visibility := Visibility.Collapsed, selection := some ⟨6, 6⟩ }
    () rfl rfl).2.1

/-- C9: the collapsed path of `measure` leaves the dirty flag exactly as it
was: forcing the size to (0, 0) does not by itself dirty a clean cache, and an
already-dirty cache stays dirty. -/
theorem measure_collapsed_keeps_dirty {σ : Type} (self : TextSelectionLayout)
    (o : ChildOracle σ) (reg : Entity → Bool) (children : List Entity)
    (env : NodeEnv) (w : σ) (h : env.visibility = Visibility.Collapsed) :
    (self.measure o reg children env w).1.dirty = self.desired_size.dirty := by
  rw [measure_collapsed_eq self o reg children env w h]
  rfl

/-- C9 witness: collapsing a node whose cached size was the nonzero (10, 10)
on a clean cache reports the new size (0, 0) without setting dirty. -/
theorem measure_collapsed_keeps_dirty_witness :
    (TextSelectionLayout.measure ⟨⟨10, 10, false⟩, ⟨0, 0⟩⟩ oDirty allReg [0]
        { envC5 with visibility := Visibility.Collapsed } ()).1.dirty = false := by
  exact measure_collapsed_keeps_dirty ⟨⟨10, 10, false⟩, ⟨0, 0⟩⟩ oDirty allReg [0]
    { envC5 with visibility := Visibility.Collapsed } () rfl

/-- C10: the prefix is taken by byte offset: a selection start that is at most
the text's byte length but falls inside a multi-byte character's byte run
yields no substring, so the caret measurement is skipped and the margin-left
written is the explicit offset only, with the call completing normally. -/
theorem arrange_non_boundary_skip {σ : Type} (self : TextSelectionLayout)
    (o : ChildOracle σ) (reg : Entity → Bool) (children : List Entity)
    (alignH : AlignHeight) (fm : FontMeasure) (parent_size : ℚ × ℚ)
    (env : NodeEnv) (w : σ) (t : List Char) (sel : TextSelection) (m : Margin)
    (hd : self.desired_size.dirty = true)
    (ht : env.text = some t) (hs : env.selection = some sel)
    (hm : env.margin = some m)
    (_hmb : ∃ c ∈ t, 1 < c.utf8Size)
    (_hle : sel.start_index ≤ utf8Len t)
    (hnb : isCharBoundary t sel.start_index = false) :
    strGetTo t sel.start_index = none ∧
    (self.arrange o reg children alignH fm parent_size env w).2.2.1.margin =
      some (m.set_left (env.offset.getD 0)) := by
  have hnone := strGetTo_none_of_not_boundary t sel.start_index hnb
  refine ⟨hnone, ?_⟩
  simp only [arrange_run self o reg children alignH fm parent_size env w hd,
    boundsWrite_margin, marginWrite_margin fm env m hm,
    caretPos_skip_oob fm env t sel ht hs hnone]

/-- C10 witness: text "é" (2 bytes) with selection start 1, offset 3 — no
substring, and the margin-left becomes exactly the offset 3. -/
theorem arrange_non_boundary_skip_witness :
    strGetTo ['é'] 1 = none ∧
    (TextSelectionLayout.arrange ⟨⟨4, 4, true⟩, ⟨0, 0⟩⟩ oUnit noReg []
        stretchAlign fmOdd (100, 100) envC10 ()).2.2.1.margin =
      some ⟨3, 0, 0, 0⟩ := by
  have h := arrange_non_boundary_skip ⟨⟨4, 4, true⟩, ⟨0, 0⟩⟩ oUnit noReg []
    stretchAlign fmOdd (100, 100) envC10 () ['é'] ⟨1, 1⟩ ⟨0, 0, 0, 0⟩
    rfl rfl rfl rfl (by decide) (by decide) (by decide)
  exact ⟨h.1, h.2.trans (by decide)⟩

end Orbtk
